import Mathlib

/-!
Verification of the QuickDrop session-scoped notification pipeline.

The development shallowly embeds the JavaScript source:
- the Express API server (create-session, get-upload-url, the SSE
  subscribe endpoint with its per-connection Pub/Sub subscription);
- the storage-triggered Cloud Function updateFileMetadata (parse the
  object path, write the Firestore record, publish the fan-out event);
- the React client event sink (dedup by id, resort by createdAt).

JavaScript strings are Lean String values; the JS split/join/startsWith
operations are modelled character-exactly below.  External collaborators
(Firestore, Cloud Storage signing, the Pub/Sub broker transport) appear
as explicit parameters: the session collection is a lookup function, URL
signing is an abstract function, the broker server-side filter semantics
for a filter of shape attributes.sessionId = "X" is the filterMatches
predicate.  The clock is passed in as the decimal rendering of
Date.now (nowStr), which is how the source interpolates it into strings.
-/

namespace QuickDrop

/-- Character-exact model of the JavaScript String.prototype.split with a
single-character separator: every occurrence of the separator cuts, and
empty segments are kept (so splitting the empty string yields one empty
segment, exactly as in JS). -/
def splitChars (sep : Char) : List Char → List (List Char)
  | [] => [[]]
  | c :: rest =>
    match splitChars sep rest with
    | [] => if c = sep then [[], []] else [[c]]
    | h :: t => if c = sep then [] :: h :: t else (c :: h) :: t

/-- JS s.split(sep) on Lean strings. -/
def jsSplit (sep : Char) (s : String) : List String :=
  (splitChars sep s.data).map String.mk

/-- JS array.join(sep): empty list gives the empty string, otherwise the
segments interleaved with the separator. -/
def jsJoin (sep : String) : List String → String
  | [] => ""
  | s :: rest =>
    match rest with
    | [] => s
    | _ :: _ => s ++ sep ++ jsJoin sep rest

/-- Helper for the JS startsWith model: the first list is an initial run
of the second. -/
def startsWithChars : List Char → List Char → Bool
  | [], _ => true
  | _ :: _, [] => false
  | p :: ps, c :: cs => p = c && startsWithChars ps cs

/-- JS s.startsWith(pat). -/
def jsStartsWith (s pat : String) : Bool :=
  startsWithChars pat.data s.data

/-- A session document in the quickdrop-sessions Firestore collection, as
written by POST /api/create-session: createdAt = now, expiresAt =
now + 60 minutes (epoch milliseconds). -/
structure Session where
  createdAt : Int
  expiresAt : Int
deriving DecidableEq, Repr

/-- The JSON body of POST /api/get-upload-url.  Each field is optional
(absent in the JSON) and, when present, may still be falsy in the JS
sense (empty string, zero). -/
structure UploadUrlRequest where
  sessionId : Option String
  fileName : Option String
  fileType : Option String
  fileSize : Option Int
deriving DecidableEq, Repr

/-- The responses the get-upload-url handler can produce.  badRequest is
the 400 path, notFound the 404 path, ok the 200 path carrying
uploadUrl and storagePath. -/
inductive UploadUrlResponse where
  | badRequest (message : String)
  | notFound (message : String)
  | ok (uploadUrl : String) (storagePath : String)
deriving DecidableEq, Repr

/-- JS truthiness of an optional string field: absent, or present and
empty, is falsy. -/
def truthyStr : Option String → Bool
  | none => false
  | some s => s ≠ ""

/-- JS truthiness of an optional numeric field: absent, or present and
equal to zero, is falsy. -/
def truthyNum : Option Int → Bool
  | none => false
  | some n => n ≠ 0

/-- MAX_FILE_SIZE_MB from quickdrop-api/index.js. -/
def MAX_FILE_SIZE_MB : Int := 100

/-- The POST /api/get-upload-url handler.  sessions is the
quickdrop-sessions collection (Firestore document lookup by id), signUrl
is the external signed-URL call, nowStr is the decimal rendering of
Date.now interpolated into the storage path.  Mirrors the source: the
falsy-field check, then the size check (fileSize > 100 * 1024 * 1024),
then an existence-only session lookup — the stored expiresAt field is
never consulted — then path construction
quickdrop-files/<sessionId>/<now>-<fileName>. -/
def getUploadUrl (sessions : String → Option Session) (signUrl : String → String)
    (nowStr : String) (req : UploadUrlRequest) : UploadUrlResponse :=
  if !(truthyStr req.sessionId) || !(truthyStr req.fileName) ||
     !(truthyStr req.fileType) || !(truthyNum req.fileSize) then
    .badRequest "Missing required parameters."
  else if req.fileSize.getD 0 > MAX_FILE_SIZE_MB * 1024 * 1024 then
    .badRequest "File exceeds 100MB limit."
  else
    match sessions (req.sessionId.getD "") with
    | none => .notFound "Session not found."
    | some _ =>
      let storagePath :=
        "quickdrop-files/" ++ req.sessionId.getD "" ++ "/" ++ nowStr ++ "-" ++
          req.fileName.getD ""
      .ok (signUrl storagePath) storagePath

/-- The finalize event the object store delivers to the Cloud Function:
bucket, full object path (name), reported size, content type and
creation time (epoch milliseconds for the embedded new Date value). -/
structure StorageEvent where
  bucket : String
  name : String
  size : Int
  contentType : String
  timeCreated : Int
deriving DecidableEq, Repr

/-- The fileMetadata object the Cloud Function writes to the files
subcollection (the FileRecord before the store assigns an id). -/
structure FileMetadata where
  name : String
  storagePath : String
  size : Int
  type : String
  createdAt : Int
deriving DecidableEq, Repr

/-- JSON values appearing in the published message body. -/
inductive JsonVal where
  | str : String → JsonVal
  | num : Int → JsonVal
deriving DecidableEq, Repr

/-- The fields contributed by spreading fileMetadata into the message
body, in source order. -/
def metadataFields (m : FileMetadata) : List (String × JsonVal) :=
  [("name", JsonVal.str m.name), ("storagePath", JsonVal.str m.storagePath),
   ("size", JsonVal.num m.size), ("type", JsonVal.str m.type),
   ("createdAt", JsonVal.num m.createdAt)]

/-- The messageData object of the Cloud Function:
sessionId field first, then the spread fileMetadata, then the
store-assigned id.  All keys are distinct, so the JS spread adds fields
without overriding. -/
def messageData (sessionId : String) (m : FileMetadata) (assignedId : String) :
    List (String × JsonVal) :=
  ("sessionId", JsonVal.str sessionId) ::
    (metadataFields m ++ [("id", JsonVal.str assignedId)])

/-- A Pub/Sub message: JSON body plus message attributes. -/
structure PubSubMessage where
  body : List (String × JsonVal)
  attributes : List (String × String)
deriving DecidableEq, Repr

/-- The message the Cloud Function publishes to the file-ready topic:
body json is messageData, attributes carry sessionId (to match the
relay filter). -/
def fanoutMessage (sessionId : String) (m : FileMetadata) (assignedId : String) :
    PubSubMessage :=
  ⟨messageData sessionId m assignedId, [("sessionId", sessionId)]⟩

/-- The externally visible effects of one Cloud Function invocation, in
program order. -/
inductive BridgeAction where
  | storeAdd (sessionId : String) (m : FileMetadata) (assignedId : String)
  | publish (msg : PubSubMessage)
deriving DecidableEq, Repr

/-- BUCKET_NAME from quickdrop-functions/index.js. -/
def BUCKET_NAME : String := "quickdrop-9a015.firebasestorage.app"

/-- The updateFileMetadata Cloud Function, as the ordered list of its
store/broker effects.  assignedId stands for the id Firestore assigns to
the added document (an external choice).  Mirrors the source: skip wrong
bucket, skip paths not under quickdrop-files/, skip paths with fewer
than 3 slash-separated parts; otherwise sessionId is parts one,
originalFileName is parts from two on rejoined with a slash, and the
function first adds the record to the store, then publishes exactly one
fan-out message. -/
def updateFileMetadata (assignedId : String) (event : StorageEvent) :
    List BridgeAction :=
  if event.bucket ≠ BUCKET_NAME then []
  else if !(jsStartsWith event.name "quickdrop-files/") then []
  else
    let parts := jsSplit '/' event.name
    if parts.length < 3 then []
    else
      let sessionId := parts.getD 1 ""
      let originalFileName := jsJoin "/" (parts.drop 2)
      let fileMetadata : FileMetadata :=
        ⟨originalFileName, event.name, event.size, event.contentType,
          event.timeCreated⟩
      [BridgeAction.storeAdd sessionId fileMetadata assignedId,
       BridgeAction.publish (fanoutMessage sessionId fileMetadata assignedId)]

/-- The ephemeral per-connection subscription the subscribe endpoint
creates: a unique name built from the session and the clock, and the
session value X carried by its server-side filter
attributes.sessionId = "X". -/
structure EphemeralSubscription where
  name : String
  sessionFilter : String
deriving DecidableEq, Repr

/-- Subscription creation in GET /api/sessions/:sessionId/subscribe. -/
def createSubscription (sessionId : String) (nowStr : String) :
    EphemeralSubscription :=
  ⟨"session-sub-" ++ sessionId ++ "-" ++ nowStr, sessionId⟩

/-- Broker filter semantics: a message passes the subscription filter
attributes.sessionId = "X" exactly when its sessionId attribute equals
X. -/
def filterMatches (sub : EphemeralSubscription)
    (attrs : List (String × String)) : Bool :=
  attrs.lookup "sessionId" = some sub.sessionFilter

/-- The broker delivers a message to a subscription iff the message
attributes pass the filter of the subscription. -/
def delivered (sub : EphemeralSubscription) (msg : PubSubMessage) : Bool :=
  filterMatches sub msg.attributes

/-- The observable steps of the per-message handler of the relay. -/
inductive RelayAction where
  | write (chunk : String)
  | ack
deriving DecidableEq, Repr

/-- SSE framing used by the relay. -/
def sseFrame (payload : String) : String :=
  "data: " ++ payload ++ "\n\n"

/-- The messageHandler of the relay: res.write of the framed payload, then
message.ack.  JavaScript sequencing: if the write throws, the handler
aborts before the ack and the exception surfaces (there is no catch
around it), modelled by the writeOk flag and the Except result. -/
def messageHandler (payload : String) (writeOk : Bool) :
    List RelayAction × Except String Unit :=
  if writeOk then ([RelayAction.write (sseFrame payload), RelayAction.ack], Except.ok ())
  else ([RelayAction.write (sseFrame payload)], Except.error "write failed")

/-- A file entry as the React client sees it: the FileRecord fields plus
the store-assigned id, parsed from the SSE event. -/
structure ClientFile where
  id : String
  name : String
  size : Int
  type : String
  storagePath : String
  createdAt : Int
deriving DecidableEq, Repr

/-- Stable insertion into a createdAt-descending list: walk past entries
at least as new, insert before the first strictly older one. -/
def insertByCreatedAtDesc (f : ClientFile) : List ClientFile → List ClientFile
  | [] => [f]
  | g :: gs =>
    if f.createdAt ≤ g.createdAt then g :: insertByCreatedAtDesc f gs
    else f :: g :: gs

/-- The JS newList.sort with comparator
b.createdAt - a.createdAt: a stable sort by createdAt descending
(Array.prototype.sort is stable, and any stable sort by the same key is
extensionally this insertion sort). -/
def sortByCreatedAtDesc : List ClientFile → List ClientFile
  | [] => []
  | f :: fs => insertByCreatedAtDesc f (sortByCreatedAtDesc fs)

/-- The eventSource.onmessage state update of the client: if an entry
with the incoming id is already present, keep the list unchanged;
otherwise put the new file on top and resort by createdAt descending. -/
def onMessage (prevFiles : List ClientFile) (fileData : ClientFile) :
    List ClientFile :=
  if prevFiles.any (fun f => f.id = fileData.id) then prevFiles
  else sortByCreatedAtDesc (fileData :: prevFiles)

/-! Helper lemmas about the string split/join model. -/

theorem data_mk (l : List Char) : (String.mk l).data = l := rfl

theorem data_slash : "/".data = ['/'] := rfl

theorem splitChars_ne_nil (sep : Char) (l : List Char) : splitChars sep l ≠ [] := by
  cases l with
  | nil => simp [splitChars]
  | cons c rest =>
    simp only [splitChars]
    cases h : splitChars sep rest with
    | nil => by_cases hc : c = sep <;> simp [hc]
    | cons hd tl => by_cases hc : c = sep <;> simp [hc]

theorem splitChars_of_not_mem (sep : Char) (l : List Char) (h : sep ∉ l) :
    splitChars sep l = [l] := by
  induction l with
  | nil => rfl
  | cons c rest ih =>
    have hc : c ≠ sep := fun e => h (e ▸ List.mem_cons_self c rest)
    have hrest : sep ∉ rest := fun e => h (List.mem_cons_of_mem c e)
    simp only [splitChars, ih hrest]
    simp [hc]

theorem splitChars_append_sep (sep : Char) (a b : List Char) (h : sep ∉ a) :
    splitChars sep (a ++ sep :: b) = a :: splitChars sep b := by
  induction a with
  | nil =>
    simp only [List.nil_append, splitChars]
    cases hb : splitChars sep b with
    | nil => exact absurd hb (splitChars_ne_nil sep b)
    | cons hd tl => simp
  | cons c a2 ih =>
    have hc : c ≠ sep := fun e => h (e ▸ List.mem_cons_self c a2)
    have ha2 : sep ∉ a2 := fun e => h (List.mem_cons_of_mem c e)
    rw [List.cons_append, splitChars, ih ha2]
    simp [hc]

theorem jsJoin_slash_splitChars (l : List Char) :
    jsJoin "/" ((splitChars '/' l).map String.mk) = String.mk l := by
  induction l with
  | nil => rfl
  | cons c rest ih =>
    cases h : splitChars '/' rest with
    | nil => exact absurd h (splitChars_ne_nil '/' rest)
    | cons hd tl =>
      rw [h] at ih
      by_cases hc : c = '/'
      · subst hc
        simp only [splitChars, h, if_pos rfl, List.map, jsJoin] at ih ⊢
        apply String.ext
        rw [String.data_append, String.data_append]
        cases tl with
        | nil =>
          simp only [List.map, jsJoin] at ih ⊢
          have hdr : hd = rest := congrArg String.data ih
          simp [hdr]
        | cons t1 t2 =>
          simp only [List.map, jsJoin] at ih ⊢
          rw [ih]
          rfl
      · simp only [splitChars, h, if_neg hc, List.map]
        cases tl with
        | nil =>
          simp only [List.map, jsJoin] at ih ⊢
          have hdr : hd = rest := congrArg String.data ih
          rw [hdr]
        | cons t1 t2 =>
          simp only [List.map, jsJoin] at ih ⊢
          apply String.ext
          have ihd := congrArg String.data ih
          simp only [String.data_append, data_mk, data_slash] at ihd ⊢
          simp only [List.cons_append] at ihd ⊢
          rw [ihd]

/-! Helper lemmas about the sort used by the client sink. -/

theorem insertByCreatedAtDesc_perm (f : ClientFile) (l : List ClientFile) :
    (insertByCreatedAtDesc f l).Perm (f :: l) := by
  induction l with
  | nil => simp [insertByCreatedAtDesc]
  | cons g gs ih =>
    rw [insertByCreatedAtDesc]
    by_cases h : f.createdAt ≤ g.createdAt
    · rw [if_pos h]
      exact (ih.cons g).trans (List.Perm.swap f g gs)
    · rw [if_neg h]

theorem sortByCreatedAtDesc_perm (l : List ClientFile) :
    (sortByCreatedAtDesc l).Perm l := by
  induction l with
  | nil => exact List.Perm.refl []
  | cons f fs ih =>
    rw [sortByCreatedAtDesc]
    exact (insertByCreatedAtDesc_perm f _).trans (ih.cons f)

theorem insertByCreatedAtDesc_pairwise (f : ClientFile) (l : List ClientFile)
    (h : l.Pairwise (fun a b => b.createdAt ≤ a.createdAt)) :
    (insertByCreatedAtDesc f l).Pairwise (fun a b => b.createdAt ≤ a.createdAt) := by
  induction l with
  | nil => simp [insertByCreatedAtDesc]
  | cons g gs ih =>
    rw [insertByCreatedAtDesc]
    rcases List.pairwise_cons.mp h with ⟨hg, hgs⟩
    by_cases hf : f.createdAt ≤ g.createdAt
    · rw [if_pos hf]
      refine List.pairwise_cons.mpr ⟨?_, ih hgs⟩
      intro b hb
      have hmem : b ∈ f :: gs := (insertByCreatedAtDesc_perm f gs).mem_iff.mp hb
      rcases List.mem_cons.mp hmem with rfl | hbgs
      · exact hf
      · exact hg b hbgs
    · rw [if_neg hf]
      push_neg at hf
      refine List.pairwise_cons.mpr ⟨?_, h⟩
      intro b hb
      rcases List.mem_cons.mp hb with rfl | hbgs
      · exact le_of_lt hf
      · exact (hg b hbgs).trans (le_of_lt hf)

theorem sortByCreatedAtDesc_pairwise (l : List ClientFile) :
    (sortByCreatedAtDesc l).Pairwise (fun a b => b.createdAt ≤ a.createdAt) := by
  induction l with
  | nil => simp [sortByCreatedAtDesc]
  | cons f fs ih =>
    rw [sortByCreatedAtDesc]
    exact insertByCreatedAtDesc_pairwise f _ ih

theorem onMessage_countP_le (l : List ClientFile) (f : ClientFile) (i : String)
    (h : l.countP (fun g => g.id = i) ≤ 1) :
    (onMessage l f).countP (fun g => g.id = i) ≤ 1 := by
  rw [onMessage]
  cases ha : l.any (fun g => g.id = f.id) with
  | true => rw [if_pos rfl]; exact h
  | false =>
    rw [if_neg Bool.false_ne_true]
    rw [(sortByCreatedAtDesc_perm (f :: l)).countP_eq, List.countP_cons]
    by_cases hfi : f.id = i
    · have h0 : l.countP (fun g => g.id = i) = 0 := by
        apply List.countP_eq_zero.mpr
        intro a hal
        simp only [decide_eq_true_eq]
        intro hai
        have hany : l.any (fun g => g.id = f.id) = true :=
          List.any_eq_true.mpr ⟨a, hal, by simp [hai, hfi]⟩
        rw [ha] at hany
        exact Bool.false_ne_true hany
      rw [h0]
      simp [hfi]
    · simpa [hfi] using h

theorem foldl_onMessage_countP_le (events : List ClientFile)
    (l : List ClientFile) (i : String)
    (h : l.countP (fun g => g.id = i) ≤ 1) :
    (events.foldl onMessage l).countP (fun g => g.id = i) ≤ 1 := by
  induction events generalizing l with
  | nil => exact h
  | cons e es ih => exact ih _ (onMessage_countP_le l e i h)

/-! Helper lemmas about the upload-url handler. -/

theorem lookup_sessionId (v : String) :
    List.lookup "sessionId" [("sessionId", v)] = some v := by
  simp [List.lookup]

theorem truthyStr_some {s : String} (h : s ≠ "") : truthyStr (some s) = true := by
  simp [truthyStr, h]

theorem truthyNum_some {n : Int} (h : n ≠ 0) : truthyNum (some n) = true := by
  simp [truthyNum, h]

/-- The happy path of get-upload-url: all fields present and truthy,
size within the limit, session present — the handler signs and returns
the path quickdrop-files/sid/now-fileName. -/
theorem getUploadUrl_ok (sessions : String → Option Session)
    (signUrl : String → String) (nowStr sid fn ft : String) (sz : Int)
    (hsid : sid ≠ "") (hfn : fn ≠ "") (hft : ft ≠ "") (hsz0 : sz ≠ 0)
    (hszle : sz ≤ MAX_FILE_SIZE_MB * 1024 * 1024)
    (s : Session) (hs : sessions sid = some s) :
    getUploadUrl sessions signUrl nowStr ⟨some sid, some fn, some ft, some sz⟩ =
      UploadUrlResponse.ok
        (signUrl ("quickdrop-files/" ++ sid ++ "/" ++ nowStr ++ "-" ++ fn))
        ("quickdrop-files/" ++ sid ++ "/" ++ nowStr ++ "-" ++ fn) := by
  simp only [getUploadUrl]
  rw [truthyStr_some hsid, truthyStr_some hfn, truthyStr_some hft,
    truthyNum_some hsz0]
  simp only [Bool.not_true, Bool.or_self, Bool.or_false, Bool.false_or,
    Option.getD_some]
  rw [if_neg Bool.false_ne_true]
  rw [if_neg (not_lt.mpr hszle)]
  rw [hs]

/-- C1: a fan-out event published by the bridge for session A passes the
filter of a relay subscription opened for A and never passes the filter
of a relay subscription opened for a distinct session B, whatever the
two connection timestamps and the file payload are. -/
theorem c1_session_scoped_delivery (A B tA tB : String) (m : FileMetadata)
    (assignedId : String) (hAB : A ≠ B) :
    delivered (createSubscription A tA) (fanoutMessage A m assignedId) = true ∧
    delivered (createSubscription B tB) (fanoutMessage A m assignedId) = false := by
  constructor
  · simp only [delivered, filterMatches, createSubscription, fanoutMessage]
    simp [lookup_sessionId]
  · simp only [delivered, filterMatches, createSubscription, fanoutMessage]
    simp [lookup_sessionId, hAB]

/-- Witness for C1 at sessions 111111 and 222222. -/
theorem c1_session_scoped_delivery_witness :
    delivered (createSubscription "111111" "1700000000000")
      (fanoutMessage "111111"
        ⟨"report.pdf", "quickdrop-files/111111/report.pdf", 5, "application/pdf", 1000⟩
        "doc1") = true ∧
    delivered (createSubscription "222222" "1700000000001")
      (fanoutMessage "111111"
        ⟨"report.pdf", "quickdrop-files/111111/report.pdf", 5, "application/pdf", 1000⟩
        "doc1") = false :=
  c1_session_scoped_delivery "111111" "222222" "1700000000000" "1700000000001"
    ⟨"report.pdf", "quickdrop-files/111111/report.pdf", 5, "application/pdf", 1000⟩
    "doc1" (by decide)

/-- C2 counterexample: a session that is still present in the store but
already expired (expiresAt = 100 while the clock reads 200) is accepted
by get-upload-url — the handler only checks document existence, so the
expired session is NOT treated like a missing one. -/
theorem c2_expired_session_accepted :
    ((fun s => if s = "123456" then some (⟨0, 100⟩ : Session) else none) "123456" =
      some (⟨0, 100⟩ : Session)) ∧
    ((100 : Int) ≤ 200) ∧
    getUploadUrl (fun s => if s = "123456" then some (⟨0, 100⟩ : Session) else none)
      (fun p => p) "200"
      ⟨some "123456", some "a.txt", some "text/plain", some 5⟩ ≠
      UploadUrlResponse.notFound "Session not found." := by
  refine ⟨rfl, by decide, ?_⟩
  decide

/-- C2 (amended): with all request fields present/truthy and the size
within the limit, get-upload-url returns the 404 Session-not-found
response exactly when the session document is absent from the store; the
stored expiresAt is never consulted, so presence alone decides. -/
theorem c2_notFound_iff_session_absent (sessions : String → Option Session)
    (signUrl : String → String) (nowStr : String) (req : UploadUrlRequest)
    (h1 : truthyStr req.sessionId = true) (h2 : truthyStr req.fileName = true)
    (h3 : truthyStr req.fileType = true) (h4 : truthyNum req.fileSize = true)
    (h5 : req.fileSize.getD 0 ≤ MAX_FILE_SIZE_MB * 1024 * 1024) :
    (getUploadUrl sessions signUrl nowStr req =
        UploadUrlResponse.notFound "Session not found." ↔
      sessions (req.sessionId.getD "") = none) := by
  rw [getUploadUrl, h1, h2, h3, h4]
  simp only [Bool.not_true, Bool.or_self, Bool.or_false, Bool.false_or]
  rw [if_neg Bool.false_ne_true]
  rw [if_neg (not_lt.mpr h5)]
  cases hs : sessions (req.sessionId.getD "") with
  | none => simp
  | some s => simp

/-- Witness for the amended C2: an absent session yields the 404
response. -/
theorem c2_notFound_iff_session_absent_witness :
    getUploadUrl (fun _ => none) (fun p => p) "1"
      ⟨some "123456", some "a.txt", some "text/plain", some 5⟩ =
      UploadUrlResponse.notFound "Session not found." :=
  (c2_notFound_iff_session_absent (fun _ => none) (fun p => p) "1"
    ⟨some "123456", some "a.txt", some "text/plain", some 5⟩
    (by decide) (by decide) (by decide) (by decide) (by decide)).mpr rfl

/-- C4: with a valid session and all fields present, a fileSize of
exactly 100 * 1024 * 1024 is accepted (the response is ok with an
uploadUrl and a storagePath) while 100 * 1024 * 1024 + 1 is rejected
with the 400 size message. -/
theorem c4_size_boundary (sessions : String → Option Session)
    (signUrl : String → String) (nowStr sid fn ft : String)
    (hsid : sid ≠ "") (hfn : fn ≠ "") (hft : ft ≠ "")
    (s : Session) (hs : sessions sid = some s) :
    (∃ u p, getUploadUrl sessions signUrl nowStr
        ⟨some sid, some fn, some ft, some (100 * 1024 * 1024)⟩ =
        UploadUrlResponse.ok u p) ∧
    getUploadUrl sessions signUrl nowStr
        ⟨some sid, some fn, some ft, some (100 * 1024 * 1024 + 1)⟩ =
      UploadUrlResponse.badRequest "File exceeds 100MB limit." := by
  constructor
  · exact ⟨_, _, getUploadUrl_ok sessions signUrl nowStr sid fn ft _
      hsid hfn hft (by decide) (by decide) s hs⟩
  · simp only [getUploadUrl]
    rw [truthyStr_some hsid, truthyStr_some hfn, truthyStr_some hft,
      truthyNum_some (by decide : (100 * 1024 * 1024 + 1 : Int) ≠ 0)]
    simp only [Bool.not_true, Bool.or_self, Bool.or_false, Bool.false_or]
    rw [if_neg Bool.false_ne_true]
    rw [if_pos (by decide)]

/-- Witness for C4 at a concrete store and request. -/
theorem c4_size_boundary_witness :
    (∃ u p, getUploadUrl (fun s => if s = "123456" then some (⟨0, 3600000⟩ : Session) else none)
        (fun p => p) "1"
        ⟨some "123456", some "a.txt", some "text/plain", some (100 * 1024 * 1024)⟩ =
        UploadUrlResponse.ok u p) ∧
    getUploadUrl (fun s => if s = "123456" then some (⟨0, 3600000⟩ : Session) else none)
        (fun p => p) "1"
        ⟨some "123456", some "a.txt", some "text/plain", some (100 * 1024 * 1024 + 1)⟩ =
      UploadUrlResponse.badRequest "File exceeds 100MB limit." :=
  c4_size_boundary (fun s => if s = "123456" then some (⟨0, 3600000⟩ : Session) else none)
    (fun p => p) "1" "123456" "a.txt" "text/plain"
    (by decide) (by decide) (by decide) ⟨0, 3600000⟩ (by decide)

/-- C10: any request with an absent or falsy field — absent sessionId,
fileName, fileType or fileSize, an empty string in one of the string
fields, or a fileSize of exactly 0 — is rejected with the 400
Missing-required-parameters response, before any other check runs. -/
theorem c10_falsy_fields_rejected (sessions : String → Option Session)
    (signUrl : String → String) (nowStr : String) (req : UploadUrlRequest)
    (h : req.sessionId = none ∨ req.sessionId = some "" ∨
         req.fileName = none ∨ req.fileName = some "" ∨
         req.fileType = none ∨ req.fileType = some "" ∨
         req.fileSize = none ∨ req.fileSize = some 0) :
    getUploadUrl sessions signUrl nowStr req =
      UploadUrlResponse.badRequest "Missing required parameters." := by
  have hcond : (!(truthyStr req.sessionId) || !(truthyStr req.fileName) ||
      !(truthyStr req.fileType) || !(truthyNum req.fileSize)) = true := by
    rcases h with h | h | h | h | h | h | h | h <;> simp [h, truthyStr, truthyNum]
  rw [getUploadUrl, hcond]
  rw [if_pos rfl]

/-- Witness for C10: a zero-byte file is rejected as a missing parameter
even though 0 is within the 100 MiB limit. -/
theorem c10_falsy_fields_rejected_witness :
    ((0 : Int) ≤ MAX_FILE_SIZE_MB * 1024 * 1024) ∧
    getUploadUrl (fun s => if s = "123456" then some (⟨0, 3600000⟩ : Session) else none)
      (fun p => p) "1"
      ⟨some "123456", some "a.txt", some "text/plain", some 0⟩ =
      UploadUrlResponse.badRequest "Missing required parameters." :=
  ⟨by decide,
    c10_falsy_fields_rejected
      (fun s => if s = "123456" then some (⟨0, 3600000⟩ : Session) else none)
      (fun p => p) "1"
      ⟨some "123456", some "a.txt", some "text/plain", some 0⟩ (by decide)⟩

/-- Shared shape lemma for the bridge: on an accepted event (right
bucket, right path root, at least 3 segments) the invocation is exactly
a store append followed by one publish, built from the parsed session
and the rejoined file name. -/
theorem updateFileMetadata_accepted (assignedId : String) (e : StorageEvent)
    (hb : e.bucket = BUCKET_NAME)
    (hp : jsStartsWith e.name "quickdrop-files/" = true)
    (hl : 3 ≤ (jsSplit '/' e.name).length) :
    updateFileMetadata assignedId e =
      [BridgeAction.storeAdd ((jsSplit '/' e.name).getD 1 "")
        ⟨jsJoin "/" ((jsSplit '/' e.name).drop 2), e.name, e.size,
          e.contentType, e.timeCreated⟩ assignedId,
       BridgeAction.publish (fanoutMessage ((jsSplit '/' e.name).getD 1 "")
        ⟨jsJoin "/" ((jsSplit '/' e.name).drop 2), e.name, e.size,
          e.contentType, e.timeCreated⟩ assignedId)] := by
  rw [updateFileMetadata]
  rw [if_neg (fun hn => hn hb)]
  rw [hp]
  simp only [Bool.not_true]
  rw [if_neg Bool.false_ne_true]
  rw [if_neg (not_lt.mpr hl)]

/-- C3 counterexample: in the message the bridge publishes for the
finalized object quickdrop-files/abc123/report.pdf, the sessionId IS a
field of the JSON body (the source spreads it into messageData), contra
the claim that it travels only as a message attribute. -/
theorem c3_sessionId_is_body_field :
    updateFileMetadata "doc1"
      ⟨BUCKET_NAME, "quickdrop-files/abc123/report.pdf", 5, "application/pdf", 1000⟩ =
      [BridgeAction.storeAdd "abc123"
        ⟨"report.pdf", "quickdrop-files/abc123/report.pdf", 5, "application/pdf", 1000⟩
        "doc1",
       BridgeAction.publish (fanoutMessage "abc123"
        ⟨"report.pdf", "quickdrop-files/abc123/report.pdf", 5, "application/pdf", 1000⟩
        "doc1")] ∧
    ("sessionId", JsonVal.str "abc123") ∈
      (fanoutMessage "abc123"
        ⟨"report.pdf", "quickdrop-files/abc123/report.pdf", 5, "application/pdf", 1000⟩
        "doc1").body :=
  ⟨by decide, by decide⟩

/-- C3 (amended): for every accepted finalized object the bridge first
appends the FileRecord to the store (obtaining the assigned id) and then
publishes exactly one fan-out event; the event body is the FileRecord
plus the assigned id plus a sessionId field, and sessionId is also
carried as a message attribute. -/
theorem c3_store_then_publish (assignedId : String) (e : StorageEvent)
    (hb : e.bucket = BUCKET_NAME)
    (hp : jsStartsWith e.name "quickdrop-files/" = true)
    (hl : 3 ≤ (jsSplit '/' e.name).length) :
    ∃ sid meta,
      updateFileMetadata assignedId e =
        [BridgeAction.storeAdd sid meta assignedId,
         BridgeAction.publish (fanoutMessage sid meta assignedId)] ∧
      (fanoutMessage sid meta assignedId).body =
        ("sessionId", JsonVal.str sid) ::
          (metadataFields meta ++ [("id", JsonVal.str assignedId)]) ∧
      (fanoutMessage sid meta assignedId).attributes = [("sessionId", sid)] :=
  ⟨_, _, updateFileMetadata_accepted assignedId e hb hp hl, rfl, rfl⟩

/-- Witness for the amended C3 at a concrete finalized object. -/
theorem c3_store_then_publish_witness :
    ∃ sid meta,
      updateFileMetadata "doc2"
        ⟨BUCKET_NAME, "quickdrop-files/s1/f.txt", 3, "text/plain", 42⟩ =
        [BridgeAction.storeAdd sid meta "doc2",
         BridgeAction.publish (fanoutMessage sid meta "doc2")] ∧
      (fanoutMessage sid meta "doc2").body =
        ("sessionId", JsonVal.str sid) ::
          (metadataFields meta ++ [("id", JsonVal.str "doc2")]) ∧
      (fanoutMessage sid meta "doc2").attributes = [("sessionId", sid)] :=
  c3_store_then_publish "doc2"
    ⟨BUCKET_NAME, "quickdrop-files/s1/f.txt", 3, "text/plain", 42⟩
    rfl (by decide) (by decide)

/-- C5: for every accepted finalized object, the constructed record has
name is all path segments after the second rejoined with a slash
(embedded separators preserved), its storagePath is the full object path
unchanged, and it is recorded under the session read from the second
segment. -/
theorem c5_path_parsing (assignedId : String) (e : StorageEvent)
    (hb : e.bucket = BUCKET_NAME)
    (hp : jsStartsWith e.name "quickdrop-files/" = true)
    (hl : 3 ≤ (jsSplit '/' e.name).length) :
    ∃ meta : FileMetadata,
      updateFileMetadata assignedId e =
        [BridgeAction.storeAdd ((jsSplit '/' e.name).getD 1 "") meta assignedId,
         BridgeAction.publish
           (fanoutMessage ((jsSplit '/' e.name).getD 1 "") meta assignedId)] ∧
      meta.name = jsJoin "/" ((jsSplit '/' e.name).drop 2) ∧
      meta.storagePath = e.name :=
  ⟨_, updateFileMetadata_accepted assignedId e hb hp hl, rfl, rfl⟩

/-- Witness for C5 on the example path
quickdrop-files/abc123/report.pdf: session abc123, name report.pdf. -/
theorem c5_path_parsing_witness :
    ((jsSplit '/' "quickdrop-files/abc123/report.pdf").getD 1 "" = "abc123") ∧
    (jsJoin "/" ((jsSplit '/' "quickdrop-files/abc123/report.pdf").drop 2) =
      "report.pdf") ∧
    ∃ meta : FileMetadata,
      updateFileMetadata "doc3"
        ⟨BUCKET_NAME, "quickdrop-files/abc123/report.pdf", 5, "application/pdf", 1000⟩ =
        [BridgeAction.storeAdd
          ((jsSplit '/' "quickdrop-files/abc123/report.pdf").getD 1 "") meta "doc3",
         BridgeAction.publish (fanoutMessage
          ((jsSplit '/' "quickdrop-files/abc123/report.pdf").getD 1 "") meta "doc3")] ∧
      meta.name = jsJoin "/" ((jsSplit '/' "quickdrop-files/abc123/report.pdf").drop 2) ∧
      meta.storagePath = "quickdrop-files/abc123/report.pdf" :=
  ⟨by decide, by decide,
    c5_path_parsing "doc3"
      ⟨BUCKET_NAME, "quickdrop-files/abc123/report.pdf", 5, "application/pdf", 1000⟩
      rfl (by decide) (by decide)⟩

/-- C6: the per-message handler of the relay always performs the framed
write of data: json plus two newlines as its first step; on a
successful write it acknowledges afterwards (write strictly before
ack), and on a failed write no ack happens and the failure surfaces as
an error, never as a silent acknowledgment. -/
theorem c6_write_before_ack (payload : String) (writeOk : Bool) :
    ((messageHandler payload writeOk).1.head? =
      some (RelayAction.write (sseFrame payload))) ∧
    (writeOk = true →
      messageHandler payload writeOk =
        ([RelayAction.write (sseFrame payload), RelayAction.ack], Except.ok ())) ∧
    (writeOk = false →
      (RelayAction.ack ∉ (messageHandler payload writeOk).1) ∧
      (messageHandler payload writeOk).2 = Except.error "write failed") := by
  cases writeOk <;> simp [messageHandler]

/-- Witness for C6: a failed write leaves no ack and an error result. -/
theorem c6_write_before_ack_witness :
    (RelayAction.ack ∉ (messageHandler "x" false).1) ∧
    (messageHandler "x" false).2 = Except.error "write failed" :=
  (c6_write_before_ack "x" false).2.2 rfl

/-- C7: the client sink is idempotent per id — re-delivering an event
whose id is present is a no-op (not an update), processing the same
event twice equals processing it once, and from the empty initial list
any event sequence yields at most one entry per id. -/
theorem c7_dedup_by_id (l : List ClientFile) (f : ClientFile)
    (events : List ClientFile) (i : String) :
    (onMessage (onMessage l f) f = onMessage l f) ∧
    (l.any (fun g => g.id = f.id) = true → onMessage l f = l) ∧
    ((events.foldl onMessage []).countP (fun g => g.id = i) ≤ 1) := by
  refine ⟨?_, ?_, ?_⟩
  · by_cases h : l.any (fun g => g.id = f.id) = true
    · have h1 : onMessage l f = l := by rw [onMessage, if_pos h]
      rw [h1]
      exact h1
    · have h1 : onMessage l f = sortByCreatedAtDesc (f :: l) := by
        rw [onMessage, if_neg h]
      rw [h1, onMessage, if_pos (List.any_eq_true.mpr
        ⟨f, ((sortByCreatedAtDesc_perm (f :: l)).mem_iff).mpr
          (List.mem_cons_self f l), by simp⟩)]
  · intro h
    rw [onMessage, if_pos h]
  · exact foldl_onMessage_countP_le events [] i (by simp)

/-- Witness for C7 at a concrete file delivered twice. -/
theorem c7_dedup_by_id_witness :
    (onMessage (onMessage [⟨"a", "n", 1, "t", "p", 10⟩] ⟨"a", "n", 1, "t", "p", 10⟩)
        ⟨"a", "n", 1, "t", "p", 10⟩ =
      onMessage [⟨"a", "n", 1, "t", "p", 10⟩] ⟨"a", "n", 1, "t", "p", 10⟩) ∧
    (onMessage [(⟨"a", "n", 1, "t", "p", 10⟩ : ClientFile)] ⟨"a", "n", 1, "t", "p", 10⟩ =
      [⟨"a", "n", 1, "t", "p", 10⟩]) ∧
    (([⟨"a", "n", 1, "t", "p", 10⟩,
       ⟨"a", "n", 1, "t", "p", 10⟩].foldl onMessage []).countP
        (fun g => g.id = "a") ≤ 1) := by
  have h := c7_dedup_by_id [⟨"a", "n", 1, "t", "p", 10⟩] ⟨"a", "n", 1, "t", "p", 10⟩
    [⟨"a", "n", 1, "t", "p", 10⟩, ⟨"a", "n", 1, "t", "p", 10⟩] "a"
  exact ⟨h.1, h.2.1 (by decide), h.2.2⟩

/-- C8: after the sink inserts a new FileRecord the visible list is
sorted by createdAt descending; and a duplicate event keeps a sorted
list sorted (the list is unchanged), so the list is sorted after every
event. -/
theorem c8_sorted_after_event (l : List ClientFile) (f : ClientFile) :
    (l.any (fun g => g.id = f.id) = false →
      (onMessage l f).Pairwise (fun a b => b.createdAt ≤ a.createdAt)) ∧
    (l.Pairwise (fun a b => b.createdAt ≤ a.createdAt) →
      (onMessage l f).Pairwise (fun a b => b.createdAt ≤ a.createdAt)) := by
  constructor
  · intro h
    rw [onMessage, if_neg (by simp [h])]
    exact sortByCreatedAtDesc_pairwise (f :: l)
  · intro hs
    rw [onMessage]
    by_cases h : l.any (fun g => g.id = f.id) = true
    · rw [if_pos h]
      exact hs
    · rw [if_neg h]
      exact sortByCreatedAtDesc_pairwise (f :: l)

/-- Witness for C8: inserting a fresh id yields a sorted list. -/
theorem c8_sorted_after_event_witness :
    (onMessage [⟨"a", "n", 1, "t", "p", 10⟩] ⟨"b", "m", 2, "u", "q", 99⟩).Pairwise
      (fun a b => b.createdAt ≤ a.createdAt) :=
  (c8_sorted_after_event [⟨"a", "n", 1, "t", "p", 10⟩]
    ⟨"b", "m", 2, "u", "q", 99⟩).1 (by decide)

/-- C9 counterexample: with fileName a/b (a name containing a
separator), session 111111 and clock reading 7, the issued storagePath
is quickdrop-files/111111/7-a/b, whose THIRD slash-separated segment is
7-a, not the full timestamp-prefixed string 7-a/b; the claimed
third-segment reading fails (the rejoined suffix, by contrast, is
7-a/b). -/
theorem c9_third_segment_counterexample :
    getUploadUrl (fun s => if s = "111111" then some (⟨0, 3600000⟩ : Session) else none)
      (fun p => p) "7" ⟨some "111111", some "a/b", some "t", some 5⟩ =
      UploadUrlResponse.ok "quickdrop-files/111111/7-a/b"
        "quickdrop-files/111111/7-a/b" ∧
    (jsSplit '/' "quickdrop-files/111111/7-a/b").getD 2 "" = "7-a" ∧
    "7-a" ≠ ("7" ++ "-" ++ "a/b") ∧
    jsJoin "/" ((jsSplit '/' "quickdrop-files/111111/7-a/b").drop 2) = "7-a/b" :=
  ⟨by decide, by decide, by decide, by decide⟩

/-- C9 (amended): every issued storagePath has the shape
quickdrop-files/sessionId/now-fileName; everything after the second
segment (rejoined) is exactly the timestamp-prefixed string
now-fileName — so the name the bridge later derives is the
timestamp-prefixed string, not the original client fileName — and
when fileName itself contains no slash this string is exactly the third
path segment. -/
theorem c9_issued_path_name (sessions : String → Option Session)
    (signUrl : String → String) (nowStr sid fn ft : String) (sz : Int)
    (hsid : sid ≠ "") (hfn : fn ≠ "") (hft : ft ≠ "") (hsz0 : sz ≠ 0)
    (hszle : sz ≤ MAX_FILE_SIZE_MB * 1024 * 1024)
    (s : Session) (hs : sessions sid = some s)
    (hsidSlash : ('/' : Char) ∉ sid.data)
    (hnowSlash : ('/' : Char) ∉ nowStr.data) :
    getUploadUrl sessions signUrl nowStr ⟨some sid, some fn, some ft, some sz⟩ =
      UploadUrlResponse.ok
        (signUrl ("quickdrop-files/" ++ sid ++ "/" ++ nowStr ++ "-" ++ fn))
        ("quickdrop-files/" ++ sid ++ "/" ++ nowStr ++ "-" ++ fn) ∧
    jsJoin "/"
        ((jsSplit '/' ("quickdrop-files/" ++ sid ++ "/" ++ nowStr ++ "-" ++ fn)).drop 2) =
      nowStr ++ "-" ++ fn ∧
    (('/' : Char) ∉ fn.data →
      (jsSplit '/' ("quickdrop-files/" ++ sid ++ "/" ++ nowStr ++ "-" ++ fn)).getD 2 "" =
        nowStr ++ "-" ++ fn) := by
  have hdata : ("quickdrop-files/" ++ sid ++ "/" ++ nowStr ++ "-" ++ fn).data =
      "quickdrop-files".data ++ '/' :: (sid.data ++ '/' :: (nowStr ++ "-" ++ fn).data) := by
    have hq : ("quickdrop-files/" : String).data = "quickdrop-files".data ++ ['/'] := by
      decide
    simp only [String.data_append, hq, data_slash]
    simp [List.append_assoc]
  have hsplit : jsSplit '/' ("quickdrop-files/" ++ sid ++ "/" ++ nowStr ++ "-" ++ fn) =
      "quickdrop-files" :: sid ::
        (splitChars '/' ((nowStr ++ "-" ++ fn).data)).map String.mk := by
    rw [jsSplit, hdata]
    rw [splitChars_append_sep '/' _ _ (by decide)]
    rw [splitChars_append_sep '/' _ _ hsidSlash]
    rfl
  refine ⟨getUploadUrl_ok sessions signUrl nowStr sid fn ft sz
      hsid hfn hft hsz0 hszle s hs, ?_, ?_⟩
  · rw [hsplit]
    exact jsJoin_slash_splitChars _
  · intro hfnSlash
    have hrest : ('/' : Char) ∉ (nowStr ++ "-" ++ fn).data := by
      rw [String.data_append, String.data_append]
      intro hmem
      rcases List.mem_append.mp hmem with h1 | h2
      · rcases List.mem_append.mp h1 with ha | hb
        · exact hnowSlash ha
        · revert hb
          decide
      · exact hfnSlash h2
    rw [hsplit, splitChars_of_not_mem '/' _ hrest]
    rfl

/-- Witness for the amended C9 with a slash-free fileName. -/
theorem c9_issued_path_name_witness :
    getUploadUrl (fun s => if s = "111111" then some (⟨0, 3600000⟩ : Session) else none)
      (fun p => p) "7" ⟨some "111111", some "a.txt", some "t", some 5⟩ =
      UploadUrlResponse.ok "quickdrop-files/111111/7-a.txt"
        "quickdrop-files/111111/7-a.txt" ∧
    jsJoin "/" ((jsSplit '/' "quickdrop-files/111111/7-a.txt").drop 2) = "7-a.txt" ∧
    (jsSplit '/' "quickdrop-files/111111/7-a.txt").getD 2 "" = "7-a.txt" := by
  have h := c9_issued_path_name
    (fun s => if s = "111111" then some (⟨0, 3600000⟩ : Session) else none)
    (fun p => p) "7" "111111" "a.txt" "t" 5
    (by decide) (by decide) (by decide) (by decide) (by decide)
    ⟨0, 3600000⟩ (by decide) (by decide) (by decide)
  have hP : "quickdrop-files/" ++ "111111" ++ "/" ++ "7" ++ "-" ++ "a.txt" =
      "quickdrop-files/111111/7-a.txt" := by decide
  rw [hP] at h
  exact ⟨h.1, h.2.1, h.2.2 (by decide)⟩

end QuickDrop
